import Mathlib

/-!
Shallow embedding of the `ohcli` command-line argument binding library
(`src/ohcli.h`, `src/main.cpp`) and proofs about its parsing, cluster
expansion, registration, arity checking, conversion and dispatch behaviour.

Strings are Lean `String`s; C++ `std::vector` becomes `List`; the two
`std::map`s (`funcs`, `alias`) become association lists with
insert-if-absent semantics (`std::map::insert` does not overwrite), which
is faithful because the maps are only ever queried by key, never iterated.
Exceptions thrown by `utils::fatal` / `utils::error` become an explicit
error value; text printed by `utils::warn` is collected in a list.
Registered actions (C++ closures) are embedded as a small inductive
`Action` whose interpreter `runAction` mutates an explicit `ExecState`.
-/

set_option maxRecDepth 8000

namespace Ohcli

/-- Errors: `utils::fatal` throws `std::logic_error`, `utils::error` throws
`std::runtime_error`; the message passed by the caller is retained (the
ANSI colour prefix added by those helpers is presentation and omitted). -/
inductive OhErr where
  | fatal (msg : String)
  | err (msg : String)
deriving DecidableEq

/-- `using CmdArg = std::vector<std::string>` -/
abbrev CmdArg := List String

/-- The actions a caller can register.  `emit` stands for a generic
observable `Cmd` closure (it records its invocation); `noop` is the
default-constructed `Callback`'s `[](CmdArg) {}`; `setIntValue` is the
closure built by `add_value<int>` (convert `args[0]` with
`utils::str_to<int>`, check the restrictor, assign); `setOption` is the
closure built by `add_option` (set the flag true). -/
inductive Action where
  | emit (tag : String)
  | noop
  | setIntValue (var : String) (restrictor : Int → Bool)
  | setOption (var : String)

/-- `CLI::Token`: a command name plus its attached plain arguments. -/
structure Token where
  cmd : String
  args : List String
deriving DecidableEq

/-- `CLI::Callback`: a registered command. -/
structure Callback where
  name : String
  func : Action
  expected_args : Int
  priority : Int

/-- The default-constructed `Callback()`: empty name, no-op function,
`expected_args = -1`, `priority = -1`. -/
def defaultCallback : Callback := ⟨"", Action.noop, -1, -1⟩

/-- `CLI::Packed`: a deferred action; the C++ `std::bind(func, arg)` thunk
is kept as the pair of the action and its bound arguments. -/
structure Packed where
  action : Action
  args : CmdArg
  priority : Int

/-- `std::map::find` on an association list (first match). -/
def mapFind {α : Type} (m : List (String × α)) (k : String) : Option α :=
  match m with
  | [] => none
  | (k', v) :: rest => if k' = k then some v else mapFind rest k

/-- `std::map::insert`: inserts only when the key is absent. -/
def mapInsert {α : Type} (m : List (String × α)) (k : String) (v : α) :
    List (String × α) :=
  match mapFind m k with
  | some _ => m
  | none => m ++ [(k, v)]

/-- Update-or-append for the variable stores of the execution state. -/
def setAssoc {α : Type} (m : List (String × α)) (k : String) (v : α) :
    List (String × α) :=
  match m with
  | [] => [(k, v)]
  | (k', v') :: rest =>
      if k' = k then (k, v) :: rest else (k', v') :: setAssoc rest k v

/-- The observable world the registered closures act on: a log of invoked
generic commands and the variables bound by `add_value<int>` / `add_option`. -/
structure ExecState where
  events : List (String × CmdArg)
  intVars : List (String × Int)
  boolVars : List (String × Bool)
deriving DecidableEq

/-- The whitespace characters skipped by `std::stoi`. -/
def cppIsSpace (c : Char) : Bool :=
  c = ' ' || c = '\t' || c = '\n' || c = '\x0b' || c = '\x0c' || c = '\r'

/-- `std::stoi`: skip leading whitespace, optional sign, then a nonempty
run of decimal digits (trailing characters ignored); `none` both when no
digits are found (`std::invalid_argument`) and when the value overflows
`int` (`std::out_of_range`) — `str_to<int>` catches either the same way. -/
def stoi (s : String) : Option Int :=
  let l := s.data.dropWhile cppIsSpace
  let sign : Int := match l with
    | '-' :: _ => -1
    | _ => 1
  let l' := match l with
    | '-' :: r => r
    | '+' :: r => r
    | _ => l
  let ds := l'.takeWhile Char.isDigit
  if ds = [] then none
  else
    let v : Int := sign * ((ds.foldl (fun acc c => acc * 10 + (c.toNat - '0'.toNat)) 0 : Nat) : Int)
    if v < -(2 ^ 31) ∨ 2 ^ 31 - 1 < v then none else some v

/-- `utils::str_to<int>`: `std::stoi`, with any failure turned into the
`utils::error` call in `src/ohcli.h` lines 120-132. -/
def strToInt (s : String) : Except OhErr Int :=
  match stoi s with
  | some v => Except.ok v
  | none => Except.error (OhErr.err ("Unexpected conversion of '" ++ s ++ "' to int."))

/-- `utils::str_to<bool>` (`src/ohcli.h` lines 204-214). -/
def strToBool (s : String) : Except OhErr Bool :=
  if s = "true" ∨ s = "True" ∨ s = "TRUE" then Except.ok true
  else if s = "false" ∨ s = "False" ∨ s = "FALSE" then Except.ok false
  else Except.error (OhErr.err ("Unexpected conversion of '" ++ s ++ "' to boolean."))

/-- Interpreter for a registered action applied to its bound arguments.
On an error the returned state is the input state (the C++ exception
propagates before any assignment happens). -/
def runAction (a : Action) (args : CmdArg) (st : ExecState) :
    ExecState × Option OhErr :=
  match a with
  | Action.emit tag => ({ st with events := st.events ++ [(tag, args)] }, none)
  | Action.noop => (st, none)
  | Action.setOption v => ({ st with boolVars := setAssoc st.boolVars v true }, none)
  | Action.setIntValue v r =>
      match args with
      | [] => (st, some (OhErr.err "out-of-range vector access"))
      | a0 :: _ =>
          match strToInt a0 with
          | Except.error e => (st, some e)
          | Except.ok temp =>
              if r temp then
                ({ st with intVars := setAssoc st.intVars v temp }, none)
              else (st, some (OhErr.err ("Invaild value '" ++ a0 ++ "'")))

/-- `for (auto &r : tasks) r();` — runs deferred actions in order, stopping
at (and returning) the first thrown error together with the state reached. -/
def runTasks : List Packed → ExecState → ExecState × Option OhErr
  | [], st => (st, none)
  | p :: ps, st =>
      match runAction p.action p.args st with
      | (st', none) => runTasks ps st'
      | (st', some e) => (st', some e)

/-- The `size_t` value of an `int` operand in `arg.size() < expected_args`:
usual arithmetic conversions on a 64-bit `size_t`. -/
def usize (e : Int) : Nat := (e % (2 : Int) ^ 64).toNat

/-- `CLI::Callback::pack` (`src/ohcli.h` lines 260-276): arity check, then
bind the arguments.  Returns the packed action together with any warnings
printed, or the error thrown. -/
def Callback.pack (cb : Callback) (arg : CmdArg) :
    Except OhErr (Packed × List String) :=
  if cb.expected_args ≠ -1 then
    if arg.length < usize cb.expected_args then
      Except.error (OhErr.err (cb.name ++ ": " ++ "Too few arguments (" ++
        toString arg.length ++ "), expects " ++ toString cb.expected_args))
    else if usize cb.expected_args < arg.length then
      Except.ok (⟨cb.func, arg, cb.priority⟩,
        [cb.name ++ ": " ++ "Expected " ++ toString cb.expected_args ++
          " arguments, but " ++ toString arg.length ++ " was given."])
    else Except.ok (⟨cb.func, arg, cb.priority⟩, [])
  else Except.ok (⟨cb.func, arg, cb.priority⟩, [])

/-- The CLI object's state (`src/ohcli.h` lines 279-284). -/
structure CLI where
  tokens : List Token
  aliasm : List (String × String)
  funcs : List (String × Callback)
  tasks : List Packed
  parsed : Bool

/-- A freshly constructed `CLI`. -/
def CLI.new : CLI := ⟨[], [], [], [], false⟩

/-- `CLI::add_cmd(cmd, func, expected_args, priority)` without alias. -/
def CLI.add_cmd (c : CLI) (cmd : String) (func : Action)
    (expected_args priority : Int) : Except OhErr CLI :=
  if c.parsed then Except.error (OhErr.fatal "Can not add_cmd() after parse().")
  else if (mapFind c.funcs cmd).isSome then
    Except.error (OhErr.fatal ("Duplicate names are prohibited.('" ++ cmd ++ "')."))
  else Except.ok { c with funcs := mapInsert c.funcs cmd ⟨cmd, func, expected_args, priority⟩ }

/-- `CLI::add_cmd(cmd, alia, func, expected_args, priority)` with alias. -/
def CLI.add_cmd_alias (c : CLI) (cmd alia : String) (func : Action)
    (expected_args priority : Int) : Except OhErr CLI :=
  if c.parsed then Except.error (OhErr.fatal "Can not add_cmd() after parse().")
  else if (mapFind c.funcs cmd).isSome then
    Except.error (OhErr.fatal ("Duplicate names are prohibited.('" ++ cmd ++ "')."))
  else if (mapFind c.aliasm alia).isSome then
    Except.error (OhErr.fatal ("Duplicate names are prohibited.('" ++ alia ++ "')."))
  else Except.ok { c with
    funcs := mapInsert c.funcs cmd ⟨cmd, func, expected_args, priority⟩,
    aliasm := mapInsert c.aliasm alia cmd }

/-- `CLI::add_value<int>(name, value, restrictor)`: registers a 1-arity
command whose closure converts, restricts and assigns. -/
def CLI.add_value_int (c : CLI) (name : String) (var : String)
    (r : Int → Bool) : Except OhErr CLI :=
  if c.parsed then Except.error (OhErr.fatal "Can not add_value() after parse().")
  else c.add_cmd name (Action.setIntValue var r) 1 (-1)

/-- `CLI::add_option(name, option)`: registers a 0-arity command setting a
boolean (the source's lifecycle message indeed says `add_value`). -/
def CLI.add_option (c : CLI) (name : String) (var : String) : Except OhErr CLI :=
  if c.parsed then Except.error (OhErr.fatal "Can not add_value() after parse().")
  else c.add_cmd name (Action.setOption var) 0 (-1)

/-- `CLI::run` (`src/ohcli.h` lines 372-379). -/
def CLI.run (c : CLI) (st : ExecState) : ExecState × Option OhErr :=
  if c.parsed = false then (st, some (OhErr.fatal "Option has not parsed."))
  else runTasks c.tasks st

/-- `tokens.back().add(...)`: append a plain argument to the last token. -/
def appendLast : List Token → String → List Token
  | [], _ => []
  | [t], a => [⟨t.cmd, t.args ++ [a]⟩]
  | t :: t' :: ts, a => t :: appendLast (t' :: ts) a

/-- One step of the tokenizer loop (`src/ohcli.h` lines 384-395): an
argument whose first character is `-` and whose length is not 1 opens a
token — stripping two dashes only when the second character is also `-`
and the length is not 2, otherwise stripping one — and anything else is
appended to the current token. -/
def tokenizeStep (ts : List Token) (a : String) : List Token :=
  match a.data with
  | c0 :: c1 :: rest2 =>
      if c0 = '-' then
        if c1 = '-' ∧ rest2 ≠ [] then ts ++ [⟨a.drop 2, []⟩]
        else ts ++ [⟨a.drop 1, []⟩]
      else appendLast ts a
  | _ => appendLast ts a

/-- The tokenizer loop over `argv[1..]`. -/
def tokenize (ts : List Token) (rest : List String) : List Token :=
  rest.foldl tokenizeStep ts

/-- `CLI::is_multi` (`src/ohcli.h` lines 437-448). -/
def isMulti (fs : List (String × Callback)) (al : List (String × String))
    (s : String) : Bool :=
  if (mapFind fs s).isSome || (mapFind al s).isSome then false
  else s.data.all fun ch =>
    (mapFind fs (String.mk [ch])).isSome || (mapFind al (String.mk [ch])).isSome

/-- `CLI::parse_multi` (`src/ohcli.h` lines 422-435), with the de-facto
iterator behaviour of the source: after the single-character tokens are
inserted and the cluster token erased, the iterator already sits on the
next token and the loop increment moves past it, so the token immediately
following an expanded cluster is carried over without being examined. -/
def parseMultiAux (fs : List (String × Callback)) (al : List (String × String)) :
    List Token → List Token → List String → List Token × List String
  | done, [], ws => (done, ws)
  | done, t :: rest, ws =>
      if isMulti fs al t.cmd then
        let singles := t.cmd.data.map fun ch => Token.mk (String.mk [ch]) []
        let ws' := ws ++ t.args.map fun a => "Discarded arguments '" ++ a ++ "'"
        match rest with
        | [] => (done ++ singles, ws')
        | r1 :: rest' => parseMultiAux fs al (done ++ singles ++ [r1]) rest' ws'
      else parseMultiAux fs al (done ++ [t]) rest ws

/-- The resolution loop of `CLI::parse` (`src/ohcli.h` lines 398-413):
primary lookup first, then alias, else warnings; packing stops the loop
with the thrown error, returning the tasks packed so far. -/
def resolveTokens (fs : List (String × Callback)) (al : List (String × String)) :
    List Token → List Packed → List String →
    List Packed × List String × Option OhErr
  | [], acc, ws => (acc, ws, none)
  | r :: rest, acc, ws =>
      match mapFind fs r.cmd with
      | some cb =>
          match cb.pack r.args with
          | Except.ok (p, ws') => resolveTokens fs al rest (acc ++ [p]) (ws ++ ws')
          | Except.error e => (acc, ws, some e)
      | none =>
          match mapFind al r.cmd with
          | some prim =>
              match ((mapFind fs prim).getD defaultCallback).pack r.args with
              | Except.ok (p, ws') => resolveTokens fs al rest (acc ++ [p]) (ws ++ ws')
              | Except.error e => (acc, ws, some e)
          | none =>
              resolveTokens fs al rest acc
                (ws ++ ["Unrecognized option '" ++ r.cmd ++ "'."] ++
                  r.args.map fun a => "Discarded arguments '" ++ a ++ "'")

/-- Insertion step of the final `std::sort` on priorities (descending;
among equal priorities the earlier element stays first, as the
introsort's insertion-sort phase does on these small inputs). -/
def insertTask (p : Packed) : List Packed → List Packed
  | [] => [p]
  | q :: qs => if q.priority ≤ p.priority then p :: q :: qs else q :: insertTask p qs

/-- `std::sort(tasks, p1.priority > p2.priority)`. -/
def sortTasks : List Packed → List Packed
  | [] => []
  | p :: ps => insertTask p (sortTasks ps)

/-- `funcs.insert(make_pair(argv[0], Callback()))` (line 396). -/
def CLI.preFuncs (c : CLI) (a0 : String) : List (String × Callback) :=
  mapInsert c.funcs a0 defaultCallback

/-- The token list after the tokenizer loop (lines 383-395). -/
def CLI.rawTokens (c : CLI) (a0 : String) (rest : List String) : List Token :=
  tokenize (c.tokens ++ [⟨a0, []⟩]) rest

/-- The token list and warnings after `parse_multi()` (line 397). -/
def CLI.expanded (c : CLI) (a0 : String) (rest : List String) :
    List Token × List String :=
  parseMultiAux (c.preFuncs a0) c.aliasm [] (c.rawTokens a0 rest) []

/-- The result of the resolution loop (lines 398-413). -/
def CLI.resolved (c : CLI) (a0 : String) (rest : List String) :
    List Packed × List String × Option OhErr :=
  resolveTokens (c.preFuncs a0) c.aliasm (c.expanded a0 rest).1 [] []

/-- Final assembly of `CLI::parse`: on a pack error the object keeps the
mutations made so far (tokens, `argv[0]` callback, tasks packed before the
failure) and `parsed` is not set; on success the tasks are sorted and
`parsed` becomes true. -/
def parseFinish (c : CLI) (ts : List Token) (fs : List (String × Callback))
    (ws1 : List String) (res : List Packed × List String × Option OhErr) :
    CLI × List String × Option OhErr :=
  match res with
  | (nt, ws2, some e) =>
      ({ c with tokens := ts, funcs := fs, tasks := c.tasks ++ nt }, ws1 ++ ws2, some e)
  | (nt, ws2, none) =>
      ({ { c with tokens := ts, funcs := fs, tasks := sortTasks (c.tasks ++ nt) }
          with parsed := true }, ws1 ++ ws2, none)

/-- `CLI::parse` (`src/ohcli.h` lines 381-419).  `argv = []` would be
undefined behaviour in the source (`argv[0]` read unconditionally); it is
mapped to an error value and used nowhere. -/
def CLI.parse (c : CLI) (argv : List String) : CLI × List String × Option OhErr :=
  match argv with
  | [] => (c, [], some (OhErr.fatal "argv is empty (undefined behaviour)"))
  | a0 :: rest =>
      parseFinish c (c.expanded a0 rest).1 (c.preFuncs a0) (c.expanded a0 rest).2
        (c.resolved a0 rest)

/-- Unwrap a registration chain known to succeed. -/
def regOk (r : Except OhErr CLI) : CLI :=
  match r with
  | Except.ok c => c
  | Except.error _ => CLI.new

/-- Whether a registration call returned normally (did not throw). -/
def regSucceeds (r : Except OhErr CLI) : Bool :=
  match r with
  | Except.ok _ => true
  | Except.error _ => false

/-- The world before `run`: nothing logged, no variables bound. -/
def st0 : ExecState := ⟨[], [], []⟩

/-- `ts` is a task list whose actions are generic commands (or the no-op
callback of the program-identity token) and `es` the invocation events
running it produces, in order. -/
def emitsTo : List Packed → List (String × CmdArg) → Prop
  | [], es => es = []
  | p :: ps, es =>
      (p.action = Action.noop ∧ emitsTo ps es) ∨
      (∃ tag es', p.action = Action.emit tag ∧ es = (tag, p.args) :: es' ∧
        emitsTo ps es')

/-- Commands registered at `"a"` and `"b"`. -/
def cliAB : CLI := regOk ((CLI.new.add_cmd "a" (Action.emit "a") (-1) (-1)).bind
  (fun c => c.add_cmd "b" (Action.emit "b") (-1) (-1)))

/-- Commands registered at `"a"`, `"b"` and `"c"`. -/
def cliABC : CLI := regOk ((CLI.new.add_cmd "a" (Action.emit "a") (-1) (-1)).bind
  (fun c => (c.add_cmd "b" (Action.emit "b") (-1) (-1)).bind
  (fun c2 => c2.add_cmd "c" (Action.emit "c") (-1) (-1))))

/-- A command of priority 5 at `"lowcmd"` and one of priority 10 at
`"highcmd"`. -/
def cliPrio : CLI := regOk ((CLI.new.add_cmd "lowcmd" (Action.emit "low") (-1) 5).bind
  (fun c => c.add_cmd "highcmd" (Action.emit "high") (-1) 10))

/-- A command registered at the same name as the program identity string. -/
def cliProgName : CLI := regOk (CLI.new.add_cmd "prog" (Action.emit "prog") (-1) (-1))

/-- An unbounded command at `"p"` and a 1-arity command at `"n"`. -/
def cliArity : CLI := regOk ((CLI.new.add_cmd "p" (Action.emit "p") (-1) (-1)).bind
  (fun c => c.add_cmd "n" (Action.emit "n") 1 (-1)))

/-- An integer value binding at `"n"` restricted to non-negative values. -/
def cliValN : CLI := regOk (CLI.new.add_value_int "n" "n" (fun z => decide (0 ≤ z)))

/-- A key absent from the first map is looked up in the appended part. -/
theorem mapFind_append_of_none {α : Type} {m : List (String × α)} {k : String}
    (h : mapFind m k = none) (m' : List (String × α)) :
    mapFind (m ++ m') k = mapFind m' k := by
  induction m with
  | nil => rfl
  | cons p rest ih =>
      obtain ⟨k', v⟩ := p
      by_cases hk : k' = k
      · simp [mapFind, hk] at h
      · simp only [mapFind, hk, if_false, List.cons_append, if_neg hk] at h ⊢
        exact ih h

/-- Inserting an absent key makes it found, with the inserted value. -/
theorem mapFind_mapInsert_self {α : Type} {m : List (String × α)} {k : String}
    (h : mapFind m k = none) (v : α) :
    mapFind (mapInsert m k v) k = some v := by
  unfold mapInsert
  rw [h]
  rw [mapFind_append_of_none h]
  simp [mapFind]

/-- Appending an argument walks past any token before the last one. -/
theorem appendLast_cons (u : Token) (l : List Token) (a : String) (h : l ≠ []) :
    appendLast (u :: l) a = u :: appendLast l a := by
  cases l with
  | nil => exact absurd rfl h
  | cons v vs => rfl

/-- Members of an insertion are the new element or old members. -/
theorem mem_insertTask {p x : Packed} (l : List Packed) (h : x ∈ insertTask p l) :
    x = p ∨ x ∈ l := by
  induction l with
  | nil => simpa [insertTask] using h
  | cons q qs ih =>
      by_cases hq : q.priority ≤ p.priority
      · simp only [insertTask, if_pos hq, List.mem_cons] at h
        simpa [List.mem_cons] using h
      · simp only [insertTask, if_neg hq, List.mem_cons] at h
        rcases h with h | h
        · exact Or.inr (by simp [h])
        · rcases ih h with h' | h'
          · exact Or.inl h'
          · exact Or.inr (by simp [h'])

/-- Insertion preserves the non-increasing priority invariant. -/
theorem insertTask_pairwise {p : Packed} {l : List Packed}
    (h : l.Pairwise (fun a b => b.priority ≤ a.priority)) :
    (insertTask p l).Pairwise (fun a b => b.priority ≤ a.priority) := by
  induction l with
  | nil => simp [insertTask]
  | cons q qs ih =>
      rcases List.pairwise_cons.mp h with ⟨hq, hqs⟩
      by_cases hcmp : q.priority ≤ p.priority
      · simp only [insertTask, if_pos hcmp]
        refine List.pairwise_cons.mpr ⟨?_, h⟩
        intro x hx
        rcases List.mem_cons.mp hx with rfl | hx'
        · exact hcmp
        · exact le_trans (hq x hx') hcmp
      · simp only [insertTask, if_neg hcmp]
        refine List.pairwise_cons.mpr ⟨?_, ih hqs⟩
        intro x hx
        rcases mem_insertTask qs hx with rfl | hx'
        · omega
        · exact hq x hx'

/-- The task sort produces a non-increasing priority sequence. -/
theorem sortTasks_pairwise (l : List Packed) :
    (sortTasks l).Pairwise (fun a b => b.priority ≤ a.priority) := by
  induction l with
  | nil => simp [sortTasks]
  | cons p ps ih =>
      simp only [sortTasks]
      exact insertTask_pairwise ih

/-- The callback map `parse` leaves behind is the one with the
program-identity entry, whether or not packing failed. -/
theorem parseFinish_funcs (c : CLI) (ts : List Token) (fs : List (String × Callback))
    (ws1 : List String) (res : List Packed × List String × Option OhErr) :
    (parseFinish c ts fs ws1 res).1.funcs = fs := by
  rcases res with ⟨nt, ws2, e⟩
  cases e <;> rfl

/-- When `parse` propagates an error the `parsed` flag is untouched. -/
theorem parseFinish_err_parsed (c : CLI) (ts : List Token)
    (fs : List (String × Callback)) (ws1 : List String)
    (res : List Packed × List String × Option OhErr) (e : OhErr)
    (h : (parseFinish c ts fs ws1 res).2.2 = some e) :
    (parseFinish c ts fs ws1 res).1.parsed = c.parsed := by
  rcases res with ⟨nt, ws2, e'⟩
  cases e'
  · simp [parseFinish] at h
  · rfl

/-- On success the stored tasks are the sorted accumulated tasks. -/
theorem parseFinish_ok_tasks (c : CLI) (ts : List Token)
    (fs : List (String × Callback)) (ws1 : List String) (nt : List Packed)
    (ws2 : List String) :
    (parseFinish c ts fs ws1 (nt, ws2, none)).1.tasks = sortTasks (c.tasks ++ nt) := rfl

/-- `parse` on a cons cell is the staged pipeline. -/
theorem parse_cons_eq (c : CLI) (a0 : String) (rest : List String) :
    c.parse (a0 :: rest) = parseFinish c (c.expanded a0 rest).1 (c.preFuncs a0)
      (c.expanded a0 rest).2 (c.resolved a0 rest) := rfl

/-- Running a task list of generic commands appends exactly their
invocation events, in task order, and reports no error. -/
theorem runTasks_emitsTo (ts : List Packed) :
    ∀ (es : List (String × CmdArg)) (st : ExecState), emitsTo ts es →
      runTasks ts st = ({ st with events := st.events ++ es }, none) := by
  induction ts with
  | nil =>
      intro es st h
      simp only [emitsTo] at h
      subst h
      simp [runTasks]
  | cons p ps ih =>
      intro es st h
      simp only [emitsTo] at h
      rcases h with ⟨hnoop, h'⟩ | ⟨tag, es', hemit, hes, h'⟩
      · simp only [runTasks, hnoop, runAction]
        exact ih es st h'
      · subst hes
        simp only [runTasks, hemit, runAction]
        rw [ih es' _ h']
        simp [List.append_assoc]

/-- C1: with commands at `"a"`,`"b"`,`"c"` the single cluster `"-abc"` is
expanded to tokens `a`,`b`,`c` with no arguments and all three actions
execute — but the expansion does NOT reach every cluster token in the
stream: after expanding `"-ab"`, the iterator increment following the
erase skips the next token, so the immediately following cluster `"-ba"`
is left unexpanded and is discarded as unrecognized. -/
theorem C1_cluster_expansion_eval :
    ((cliABC.parse ["prog", "-abc"]).1.tokens =
        [⟨"prog", []⟩, ⟨"a", []⟩, ⟨"b", []⟩, ⟨"c", []⟩] ∧
      ((cliABC.parse ["prog", "-abc"]).1.run st0).1.events =
        [("a", []), ("b", []), ("c", [])]) ∧
    ((cliAB.parse ["prog", "-ab", "-ba"]).1.tokens =
        [⟨"prog", []⟩, ⟨"a", []⟩, ⟨"b", []⟩, ⟨"ba", []⟩] ∧
      ((cliAB.parse ["prog", "-ab", "-ba"]).1.run st0).1.events =
        [("a", []), ("b", [])] ∧
      (cliAB.parse ["prog", "-ab", "-ba"]).2.1 =
        ["Unrecognized option 'ba'."]) := by
  refine ⟨⟨?_, ?_⟩, ?_, ?_, ?_⟩ <;> decide

/-- C2 counterexample: a bare `"--"` is NOT appended as a plain argument
to the open token; the code opens a new token named `"-"` from it. -/
theorem C2_counterexample :
    (CLI.new.parse ["prog", "--"]).1.tokens = [⟨"prog", []⟩, ⟨"-", []⟩] ∧
    (CLI.new.parse ["prog", "--"]).1.tokens ≠ [⟨"prog", ["--"]⟩] := by
  exact ⟨by decide, by decide⟩

/-- C2 (amended): an argument whose first character is `-` and whose
length is at least 2 opens a new token — stripping both dashes when it
starts with `--` and has length at least 3, and stripping exactly one dash
otherwise, so the bare `"--"` opens a token named `"-"`; every other
argument (empty, single character, or not starting with a dash) is
appended as a plain argument to the currently open token; and
`["prog","-a","1","2","--long","x"]` tokenizes to the three claimed
tokens. -/
theorem C2_tokenizer_rule (ts : List Token) (a : String) :
    (∀ ch r, a.data = '-' :: ch :: r → (ch = '-' → r = []) →
      tokenizeStep ts a = ts ++ [⟨a.drop 1, []⟩]) ∧
    (∀ r, a.data = '-' :: '-' :: r → r ≠ [] →
      tokenizeStep ts a = ts ++ [⟨a.drop 2, []⟩]) ∧
    ((∀ ch r, a.data = ch :: r → ch = '-' → r = []) →
      tokenizeStep ts a = appendLast ts a) ∧
    (∀ ts' t, appendLast (ts' ++ [t]) a = ts' ++ [⟨t.cmd, t.args ++ [a]⟩]) ∧
    (CLI.new.parse ["prog", "-a", "1", "2", "--long", "x"]).1.tokens =
      [⟨"prog", []⟩, ⟨"a", ["1", "2"]⟩, ⟨"long", ["x"]⟩] := by
  refine ⟨?_, ?_, ?_, ?_, by decide⟩
  · intro ch r hdata himp
    by_cases hch : ch = '-'
    · subst hch
      have hr : r = [] := himp rfl
      subst hr
      simp [tokenizeStep, hdata]
    · simp [tokenizeStep, hdata, hch]
  · intro r hdata hr
    simp [tokenizeStep, hdata, hr]
  · intro hplain
    match hdata : a.data with
    | [] => simp [tokenizeStep, hdata]
    | [c0] => simp [tokenizeStep, hdata]
    | c0 :: c1 :: r2 =>
        have h0 : ¬c0 = '-' := by
          intro hc0
          exact absurd (hplain c0 (c1 :: r2) hdata hc0) (by simp)
        simp [tokenizeStep, hdata, h0]
  · intro ts' t
    induction ts' with
    | nil => rfl
    | cons u us ih =>
        rw [List.cons_append, appendLast_cons u (us ++ [t]) a (by simp), ih]
        rfl

/-- C2 witness: the single-dash rule at the concrete argument `"-x"`. -/
theorem C2_tokenizer_rule_witness :
    tokenizeStep [⟨"p", []⟩] "-x" = [⟨"p", []⟩] ++ [⟨"-x".drop 1, []⟩] :=
  (C2_tokenizer_rule [⟨"p", []⟩] "-x").1 'x' [] (by decide)
    (fun h => absurd h (by decide))

/-- C3 counterexample: cross-namespace duplicates are accepted — after
registering primary `"f"` with alias `"oneof"`, a new primary named
`"oneof"` registers without a fatal error, and after registering primary
`"g"`, a new alias named `"g"` registers without a fatal error. -/
theorem C3_counterexample :
    regSucceeds ((CLI.new.add_cmd_alias "f" "oneof" (Action.emit "f") (-1) (-1)).bind
      (fun c => c.add_cmd "oneof" (Action.emit "g") (-1) (-1))) = true ∧
    regSucceeds ((CLI.new.add_cmd "g" (Action.emit "g") (-1) (-1)).bind
      (fun c => c.add_cmd_alias "h" "g" (Action.emit "h") (-1) (-1))) = true := by
  exact ⟨rfl, rfl⟩

/-- C3 (amended): every registration operation fails fatally after
`parse()`; a primary name duplicating an existing primary name is fatal,
and an alias duplicating an existing alias is fatal; but the two
namespaces are checked independently, so a new primary name is accepted
whenever it is absent from the primary map (even if it equals an existing
alias), and a new alias is accepted whenever it is absent from the alias
map (even if it equals an existing primary name); and `run()` before
`parse()` fails fatally. -/
theorem C3_registration_checks (c : CLI) (n al : String) (f : Action)
    (e pr : Int) (r : Int → Bool) (st : ExecState) :
    (c.parsed = true →
      c.add_cmd n f e pr = Except.error (OhErr.fatal "Can not add_cmd() after parse().") ∧
      c.add_cmd_alias n al f e pr =
        Except.error (OhErr.fatal "Can not add_cmd() after parse().") ∧
      c.add_value_int n n r =
        Except.error (OhErr.fatal "Can not add_value() after parse().") ∧
      c.add_option n n =
        Except.error (OhErr.fatal "Can not add_value() after parse().")) ∧
    (c.parsed = false → (mapFind c.funcs n).isSome = true →
      c.add_cmd n f e pr =
        Except.error (OhErr.fatal ("Duplicate names are prohibited.('" ++ n ++ "').")) ∧
      c.add_cmd_alias n al f e pr =
        Except.error (OhErr.fatal ("Duplicate names are prohibited.('" ++ n ++ "')."))) ∧
    (c.parsed = false → mapFind c.funcs n = none → (mapFind c.aliasm al).isSome = true →
      c.add_cmd_alias n al f e pr =
        Except.error (OhErr.fatal ("Duplicate names are prohibited.('" ++ al ++ "')."))) ∧
    (c.parsed = false → mapFind c.funcs n = none →
      regSucceeds (c.add_cmd n f e pr) = true) ∧
    (c.parsed = false → mapFind c.funcs n = none → mapFind c.aliasm al = none →
      regSucceeds (c.add_cmd_alias n al f e pr) = true) ∧
    (c.parsed = false → c.run st = (st, some (OhErr.fatal "Option has not parsed."))) := by
  refine ⟨?_, ?_, ?_, ?_, ?_, ?_⟩
  · intro hp
    refine ⟨?_, ?_, ?_, ?_⟩ <;>
      simp [CLI.add_cmd, CLI.add_cmd_alias, CLI.add_value_int, CLI.add_option, hp]
  · intro hp hdup
    constructor <;> simp [CLI.add_cmd, CLI.add_cmd_alias, hp, hdup]
  · intro hp hn hdup
    simp [CLI.add_cmd_alias, hp, hn, hdup]
  · intro hp hn
    simp [CLI.add_cmd, hp, hn, regSucceeds]
  · intro hp hn hal
    simp [CLI.add_cmd_alias, hp, hn, hal, regSucceeds]
  · intro hp
    simp [CLI.run, hp]

/-- C3 witness: duplicate primary registration on a concrete registry. -/
theorem C3_registration_checks_witness :
    cliAB.add_cmd "a" Action.noop (-1) (-1) =
      Except.error (OhErr.fatal ("Duplicate names are prohibited.('" ++ "a" ++ "').")) :=
  ((C3_registration_checks cliAB "a" "x" Action.noop (-1) (-1) (fun _ => true) st0).2.1
    rfl (by decide)).1

/-- C4: after a successful `parse()`, the stored deferred actions are in
non-increasing priority order, so `run()` executes them that way; in
particular with priorities 10 and 5 registered, the priority-10 action
runs first whichever input order the two commands appear in. -/
theorem C4_priority_order (c : CLI) (argv : List String) :
    ((c.parse argv).2.2 = none →
      ((c.parse argv).1.tasks).Pairwise (fun p q => q.priority ≤ p.priority)) ∧
    ((cliPrio.parse ["prog", "-lowcmd", "-highcmd"]).1.run st0).1.events =
      [("high", []), ("low", [])] ∧
    ((cliPrio.parse ["prog", "-highcmd", "-lowcmd"]).1.run st0).1.events =
      [("high", []), ("low", [])] := by
  refine ⟨?_, by decide, by decide⟩
  intro h
  cases argv with
  | nil => simp [CLI.parse] at h
  | cons a0 rest =>
      rw [parse_cons_eq] at h ⊢
      rcases hres : c.resolved a0 rest with ⟨nt, ws2, e⟩
      cases e with
      | some e' =>
          rw [hres] at h
          simp [parseFinish] at h
      | none =>
          rw [parseFinish_ok_tasks]
          exact sortTasks_pairwise _

/-- C4 witness: the sortedness fact at the concrete two-priority parse. -/
theorem C4_priority_order_witness :
    ((cliPrio.parse ["prog", "-lowcmd", "-highcmd"]).1.tasks).Pairwise
      (fun p q => q.priority ≤ p.priority) :=
  (C4_priority_order cliPrio ["prog", "-lowcmd", "-highcmd"]).1 (by decide)

/-- C5: with a set (non-negative) `expected_args`, packing fewer arguments
than expected throws an error naming the command, the actual count and
the expected count; packing more emits only a warning and passes all the
supplied arguments through unmodified; packing exactly the expected count
is silent; and an unset `expected_args` (`-1`) accepts any count with
neither error nor warning. -/
theorem C5_arity_check (name : String) (f : Action) (e pr : Int) (args : CmdArg) :
    (0 ≤ e → e < 2 ^ 31 →
      (((args.length : Int) < e →
        Callback.pack ⟨name, f, e, pr⟩ args = Except.error (OhErr.err (name ++ ": " ++
          "Too few arguments (" ++ toString args.length ++ "), expects " ++ toString e))) ∧
      (e < (args.length : Int) →
        Callback.pack ⟨name, f, e, pr⟩ args =
          Except.ok (⟨f, args, pr⟩, [name ++ ": " ++ "Expected " ++ toString e ++
            " arguments, but " ++ toString args.length ++ " was given."])) ∧
      ((args.length : Int) = e →
        Callback.pack ⟨name, f, e, pr⟩ args = Except.ok (⟨f, args, pr⟩, [])))) ∧
    (e = -1 → Callback.pack ⟨name, f, e, pr⟩ args = Except.ok (⟨f, args, pr⟩, [])) := by
  constructor
  · intro he0 he31
    have hu : usize e = e.toNat := by
      unfold usize
      rw [Int.emod_eq_of_lt he0 (by omega)]
    refine ⟨?_, ?_, ?_⟩
    · intro hlt
      have hne : e ≠ -1 := by omega
      have h1 : args.length < usize e := by rw [hu]; omega
      simp [Callback.pack, hne, h1]
    · intro hgt
      have hne : e ≠ -1 := by omega
      have h1 : ¬(args.length < usize e) := by rw [hu]; omega
      have h2 : usize e < args.length := by rw [hu]; omega
      simp [Callback.pack, hne, h1, h2]
    · intro heq
      have hne : e ≠ -1 := by omega
      have h1 : ¬(args.length < usize e) := by rw [hu]; omega
      have h2 : ¬(usize e < args.length) := by rw [hu]; omega
      simp [Callback.pack, hne, h1, h2]
  · intro he
    subst he
    simp [Callback.pack]

/-- C5 witness: a 1-arity command packed with no arguments throws the
too-few-arguments error. -/
theorem C5_arity_check_witness :
    Callback.pack ⟨"n", Action.noop, 1, -1⟩ [] = Except.error (OhErr.err ("n" ++ ": " ++
      "Too few arguments (" ++ toString (List.length ([] : CmdArg)) ++ "), expects " ++
      toString (1 : Int))) :=
  ((C5_arity_check "n" Action.noop 1 (-1) []).1 (by decide) (by decide)).1 (by decide)

/-- C6 counterexample: when `argv[0]` coincides with a registered primary
name, the insert-if-absent of the default callback does nothing, so the
program-identity token resolves to the USER's binding and its action
executes during `run()`. -/
theorem C6_counterexample :
    ((cliProgName.parse ["prog"]).1.run st0).1.events = [("prog", [])] := by
  decide

/-- C6 (amended): when `argv[0]` is not an already-registered primary
name, `parse` binds it to the default no-op callback (so the identity
token triggers no user action — running the no-op leaves the state
untouched); and every token is dispatched by exactly one rule: a primary
match packs that binding, else an alias match packs the aliased binding,
else the token and each of its arguments are discarded with warnings.
If `argv[0]` equals a registered primary name, that user binding is the
one packed for the identity token instead. -/
theorem C6_resolution (c : CLI) (a0 : String) (rest : List String)
    (fs : List (String × Callback)) (al : List (String × String))
    (t : Token) (tl : List Token) (acc : List Packed) (ws : List String) :
    (mapFind c.funcs a0 = none →
      mapFind ((c.parse (a0 :: rest)).1.funcs) a0 = some defaultCallback) ∧
    (∀ args st, runAction defaultCallback.func args st = (st, none)) ∧
    (∀ cb p ws', mapFind fs t.cmd = some cb → cb.pack t.args = Except.ok (p, ws') →
      resolveTokens fs al (t :: tl) acc ws =
        resolveTokens fs al tl (acc ++ [p]) (ws ++ ws')) ∧
    (∀ prim p ws', mapFind fs t.cmd = none → mapFind al t.cmd = some prim →
      ((mapFind fs prim).getD defaultCallback).pack t.args = Except.ok (p, ws') →
      resolveTokens fs al (t :: tl) acc ws =
        resolveTokens fs al tl (acc ++ [p]) (ws ++ ws')) ∧
    (mapFind fs t.cmd = none → mapFind al t.cmd = none →
      resolveTokens fs al (t :: tl) acc ws = resolveTokens fs al tl acc
        (ws ++ ["Unrecognized option '" ++ t.cmd ++ "'."] ++
          t.args.map fun a => "Discarded arguments '" ++ a ++ "'")) := by
  refine ⟨?_, ?_, ?_, ?_, ?_⟩
  · intro h
    rw [parse_cons_eq, parseFinish_funcs]
    exact mapFind_mapInsert_self h defaultCallback
  · intro args st
    rfl
  · intro cb p ws' hfind hpack
    simp [resolveTokens, hfind, hpack]
  · intro prim p ws' hfs hal hpack
    simp [resolveTokens, hfs, hal, hpack]
  · intro hfs hal
    simp [resolveTokens, hfs, hal]

/-- C6 witness: on an empty registry, `parse ["prog"]` binds the identity
name to the no-op callback. -/
theorem C6_resolution_witness :
    mapFind ((CLI.new.parse ["prog"]).1.funcs) "prog" = some defaultCallback :=
  (C6_resolution CLI.new "prog" [] [] [] ⟨"x", []⟩ [] [] []).1 rfl

/-- C7: `add_value<int>` registers a 1-arity binding whose action, invoked
on a non-numeric first argument, throws the conversion error and leaves
the execution state (hence the bound variable) unchanged; and when the
converted value fails the restrictor, it throws the invalid-value error,
again leaving the state unchanged. -/
theorem C7_conversion_failure (c : CLI) (name v : String) (r : Int → Bool)
    (c' : CLI) (st : ExecState) :
    c.add_value_int name v r = Except.ok c' →
    (mapFind c'.funcs name = some ⟨name, Action.setIntValue v r, 1, -1⟩ ∧
      (∀ a tlargs, stoi a = none →
        runAction (Action.setIntValue v r) (a :: tlargs) st =
          (st, some (OhErr.err ("Unexpected conversion of '" ++ a ++ "' to int.")))) ∧
      (∀ a tlargs nval, stoi a = some nval → r nval = false →
        runAction (Action.setIntValue v r) (a :: tlargs) st =
          (st, some (OhErr.err ("Invaild value '" ++ a ++ "'"))))) := by
  intro h
  refine ⟨?_, ?_, ?_⟩
  · unfold CLI.add_value_int CLI.add_cmd at h
    by_cases hp : c.parsed
    · simp [hp] at h
    · by_cases hf : (mapFind c.funcs name).isSome
      · simp [hp, hf] at h
      · simp [hp, hf] at h
        have hnone : mapFind c.funcs name = none := by
          cases hm : mapFind c.funcs name
          · rfl
          · rw [hm] at hf
            simp at hf
        rw [← h]
        exact mapFind_mapInsert_self hnone _
  · intro a tlargs hs
    simp [runAction, strToInt, hs]
  · intro a tlargs nval hs hr
    simp [runAction, strToInt, hs, hr]

/-- C7 witness: the concrete value binding at `"n"`, invoked on the
non-numeric `"x"`, errors without touching the state. -/
theorem C7_conversion_failure_witness :
    runAction (Action.setIntValue "n" (fun z => decide (0 ≤ z))) ["x"] st0 =
      (st0, some (OhErr.err ("Unexpected conversion of '" ++ "x" ++ "' to int."))) :=
  ((C7_conversion_failure CLI.new "n" "n" (fun z => decide (0 ≤ z)) cliValN st0
    rfl).2.1) "x" [] (by decide)

/-- C8: boolean conversion succeeds exactly on the six literals —
returning `true` on the three true spellings and `false` on the three
false spellings — and on every other string throws the conversion error
carrying the raw string and the target type name. -/
theorem C8_bool_conversion (s : String) :
    (strToBool s = Except.ok true ↔ (s = "true" ∨ s = "True" ∨ s = "TRUE")) ∧
    (strToBool s = Except.ok false ↔ (s = "false" ∨ s = "False" ∨ s = "FALSE")) ∧
    (¬(s = "true" ∨ s = "True" ∨ s = "TRUE" ∨ s = "false" ∨ s = "False" ∨ s = "FALSE") →
      strToBool s =
        Except.error (OhErr.err ("Unexpected conversion of '" ++ s ++ "' to boolean."))) := by
  unfold strToBool
  split_ifs with h1 h2
  · rcases h1 with h | h | h <;> subst h <;> simp
  · rcases h2 with h | h | h <;> subst h <;> simp
  · refine ⟨⟨fun hh => absurd hh (by simp), fun hh => absurd hh h1⟩,
      ⟨fun hh => absurd hh (by simp), fun hh => absurd hh h2⟩, fun _ => rfl⟩

/-- C8 witness: the string `"yes"` is rejected with the conversion error. -/
theorem C8_bool_conversion_witness :
    strToBool "yes" =
      Except.error (OhErr.err ("Unexpected conversion of '" ++ "yes" ++ "' to boolean.")) :=
  (C8_bool_conversion "yes").2.2 (by decide)

/-- C9: `run()` has no already-run guard: on a parsed CLI whose tasks are
generic commands, one `run()` appends each invocation event once, and a
second consecutive `run()` re-executes every packed action again in the
same order, appending the same event list a second time. -/
theorem C9_run_twice (c : CLI) (st : ExecState) (es : List (String × CmdArg))
    (hp : c.parsed = true) (he : emitsTo c.tasks es) :
    c.run st = ({ st with events := st.events ++ es }, none) ∧
    (c.run (c.run st).1).1.events = st.events ++ (es ++ es) ∧
    (c.run (c.run st).1).2 = none := by
  have h1 : c.run st = ({ st with events := st.events ++ es }, none) := by
    unfold CLI.run
    rw [hp, if_neg (by simp)]
    exact runTasks_emitsTo c.tasks es st he
  have h2 : c.run ({ st with events := st.events ++ es } : ExecState) =
      ({ st with events := st.events ++ (es ++ es) }, none) := by
    unfold CLI.run
    rw [hp, if_neg (by simp)]
    rw [runTasks_emitsTo c.tasks es _ he]
    simp [List.append_assoc]
  refine ⟨h1, ?_, ?_⟩
  · rw [h1]
    exact congrArg (fun q => q.1.events) h2
  · rw [h1]
    exact congrArg (fun q => q.2) h2

/-- C9 witness: the two-priority parse, run from the empty world. -/
theorem C9_run_twice_witness :
    (cliPrio.parse ["prog", "-lowcmd", "-highcmd"]).1.run st0 =
      ({ st0 with events := st0.events ++ [("high", []), ("low", [])] }, none) :=
  (C9_run_twice (cliPrio.parse ["prog", "-lowcmd", "-highcmd"]).1 st0
    [("high", []), ("low", [])] rfl
    (Or.inr ⟨"high", [("low", [])], rfl, rfl,
      Or.inr ⟨"low", [], rfl, rfl, Or.inl ⟨rfl, rfl⟩⟩⟩)).1

/-- C10: when packing throws, `parse` propagates the error before setting
the `parsed` flag, so a CLI that was unparsed stays unparsed and a
subsequent `run()` is the fatal not-parsed error; yet the tokenization and
the tasks packed before the failing token remain stored: concretely, with
`"p"` unbounded and `"n"` of arity 1, `parse ["prog","-p","hello","-n"]`
errors on `"n"`, leaves `parsed` false, and keeps all three tokens and the
two tasks packed before the failure. -/
theorem C10_parse_not_atomic (c : CLI) (argv : List String) (e : OhErr)
    (st : ExecState) :
    ((c.parse argv).2.2 = some e → (c.parse argv).1.parsed = c.parsed) ∧
    (c.parsed = false → (c.parse argv).2.2 = some e →
      (c.parse argv).1.run st = (st, some (OhErr.fatal "Option has not parsed."))) ∧
    ((cliArity.parse ["prog", "-p", "hello", "-n"]).2.2 =
        some (OhErr.err "n: Too few arguments (0), expects 1") ∧
      (cliArity.parse ["prog", "-p", "hello", "-n"]).1.parsed = false ∧
      (cliArity.parse ["prog", "-p", "hello", "-n"]).1.tokens =
        [⟨"prog", []⟩, ⟨"p", ["hello"]⟩, ⟨"n", []⟩] ∧
      (cliArity.parse ["prog", "-p", "hello", "-n"]).1.tasks =
        [⟨Action.noop, [], -1⟩, ⟨Action.emit "p", ["hello"], -1⟩]) := by
  have hgen : (c.parse argv).2.2 = some e → (c.parse argv).1.parsed = c.parsed := by
    cases argv with
    | nil => intro _; rfl
    | cons a0 rest =>
        intro h
        rw [parse_cons_eq] at h ⊢
        exact parseFinish_err_parsed _ _ _ _ _ e h
  refine ⟨hgen, ?_, by decide, by decide, by decide, rfl⟩
  intro hp h
  have hflag := hgen h
  rw [hp] at hflag
  unfold CLI.run
  rw [hflag, if_pos rfl]

/-- C10 witness: after the failing parse, `run()` is the fatal error. -/
theorem C10_parse_not_atomic_witness :
    (cliArity.parse ["prog", "-p", "hello", "-n"]).1.run st0 =
      (st0, some (OhErr.fatal "Option has not parsed.")) :=
  (C10_parse_not_atomic cliArity ["prog", "-p", "hello", "-n"]
    (OhErr.err "n: Too few arguments (0), expects 1") st0).2.1 rfl (by decide)

end Ohcli
